import Mathlib

/-
Verification development for the prettify-symbols-mode extension.
The stateful glue module (src/extension.ts) is embedded as pure state
transformers over an explicit state record; the host environment
(configuration store, grammar loader, open documents) is an explicit
record of inputs. The coordinate mapper of the document controller
is not part of the shipped sources and is modelled from the spec.
-/

set_option autoImplicit false

namespace PrettifySymbols

/-! ## Data model -/

/-- Modelled from the spec: a Substitution rule from configuration.ts
(not under src/): a pattern, a replacement glyph, and an optional
required scope qualifier. Only the fields that extension.ts reads
(the substitutions list and the scope field) matter to the claims. -/
structure Substitution where
  ugly : String
  pretty : String
  scope : Option String
deriving DecidableEq, Repr

/-- Modelled from the spec: a LanguageEntry from configuration.ts
(not under src/): the language identifier, the ordered substitution
rules, and the per-language policy fields that extension.ts defaults
in reloadConfiguration. Unset optional fields are represented by none. -/
structure LanguageEntry where
  language : String
  substitutions : List Substitution
  revealOn : Option String
  adjustCursorMovement : Option Bool
  prettyCursor : Option String
  combineIdenticalScopes : Option Bool
  textMateInitialScope : Option String
deriving DecidableEq, Repr

/-- Settings as assembled in reloadConfiguration from the workspace
configuration: the language entries plus the global defaults. -/
structure Settings where
  substitutions : List LanguageEntry
  revealOn : String
  adjustCursorMovement : Bool
  prettyCursor : String
  hideTextMethod : String
deriving DecidableEq, Repr

/-- A loaded TextMate grammar, kept abstract (only its identity matters). -/
abbrev Grammar := String

/-- The state captured by a PrettyDocumentController at construction:
the resolved language entry, the (possibly absent) grammar and the
hide-text method, as passed by openDocument. -/
structure DocSession where
  language : LanguageEntry
  grammar : Option Grammar
  hideTextMethod : String
deriving DecidableEq, Repr

/-- A text document as seen by the handlers: its uri and language id. -/
structure Document where
  uri : String
  languageId : String
deriving DecidableEq, Repr

/-- The module-level mutable state of extension.ts. notifyLog and
disposedLog record the observable effects (handler notifications and
controller disposals) so that claims about them can be stated. -/
structure ExtState where
  prettySymbolsEnabled : Bool
  documents : List (String × DocSession)
  settings : Settings
  additionalSubstitutions : List LanguageEntry
  onEnabledChangeHandlers : List Nat
  textMateRegistryOk : Bool
  notifyLog : List (Nat × Bool)
  disposedLog : List DocSession
deriving DecidableEq, Repr

/-- The host environment read by reloadConfiguration and openDocument:
the raw workspace configuration values, whether the TextMate registry
constructor succeeds, the grammar loader, the language-to-scope mapping
of getLanguageScopeName, and the set of open text documents. -/
structure Env where
  rawSubstitutions : List LanguageEntry
  rawRevealOn : String
  rawAdjustCursorMovement : Bool
  rawPrettyCursor : String
  rawHideTextMethod : String
  registryOk : Bool
  loadGrammar : String → Except String Grammar
  languageScopeName : String → String
  textDocuments : List Document

/-! ## The documents map (a JS Map keyed by uri) -/

/-- Lookup in the documents map (Map.get). -/
def findDoc : List (String × DocSession) → String → Option DocSession
  | [], _ => none
  | (k, w) :: rest, uri => if k = uri then some w else findDoc rest uri

/-- Insertion into the documents map (Map.set): replace the binding
of an existing key, otherwise append at the end. -/
def mapSet : List (String × DocSession) → String → DocSession → List (String × DocSession)
  | [], uri, v => [(uri, v)]
  | (k, w) :: rest, uri, v =>
      if k = uri then (uri, v) :: rest else (k, w) :: mapSet rest uri v

/-- Removal from the documents map (Map.delete). -/
def mapDelete : List (String × DocSession) → String → List (String × DocSession)
  | [], _ => []
  | (k, w) :: rest, uri => if k = uri then rest else (k, w) :: mapDelete rest uri

/-! ## Language entry resolution (getLanguageEntry) -/

/-- The search loop of getLanguageEntry: return the first entry of
settings.substitutions whose language field equals the language id. -/
def findLanguageEntryIn (lang : String) : List LanguageEntry → Option LanguageEntry
  | [] => none
  | e :: rest => if e.language = lang then some e else findLanguageEntryIn lang rest

/-- getLanguageEntry from extension.ts: plaintext and jsonc documents
are rejected outright, otherwise the first entry with an exactly equal
language field is returned. The fuzzy-ranking block below the loop is
commented out in the source and is not modelled. -/
def getLanguageEntry (st : Settings) (lang : String) : Option LanguageEntry :=
  if lang = "plaintext" ∨ lang = "jsonc" then none
  else findLanguageEntryIn lang st.substitutions

/-- Resolution as the spec words it, for comparison: the first entry in
the configured substitutions list whose language field is exactly equal
to the language id of the document, none when no entry matches. -/
def specFirstExactEntry (subs : List LanguageEntry) (lang : String) : Option LanguageEntry :=
  subs.find? (fun e => e.language == lang)

/-! ## Document lifecycle -/

/-- The initial scope name used by openDocument: the entry's
textMateInitialScope when it is set and truthy (a nonempty string),
otherwise getLanguageScopeName of the document language. -/
def sessionScopeName (env : Env) (e : LanguageEntry) (langId : String) : String :=
  match e.textMateInitialScope with
  | some sc => if sc = "" then env.languageScopeName langId else sc
  | none => env.languageScopeName langId

/-- The awaited result of loadGrammar inside openDocument: a rejected
load is caught (console.error) and leaves the grammar undefined. -/
def loadGrammarResult (env : Env) (scopeName : String) : Option Grammar :=
  match env.loadGrammar scopeName with
  | Except.ok g => some g
  | Except.error _ => none

/-- The grammar obtained inside openDocument: a load is attempted only
when the registry exists and some substitution uses a scope, and a
failed load leaves the grammar undefined. -/
def sessionGrammar (env : Env) (s : ExtState) (language : LanguageEntry)
    (langId : String) : Option Grammar :=
  if s.textMateRegistryOk && language.substitutions.any (fun sub => sub.scope.isSome) then
    loadGrammarResult env (sessionScopeName env language langId)
  else none

/-- The PrettyDocumentController constructed by openDocument for a
fresh document: the resolved entry, the grammar outcome, and the
configured hide-text method. -/
def freshSession (env : Env) (s : ExtState) (language : LanguageEntry)
    (langId : String) : DocSession :=
  { language := language, grammar := sessionGrammar env s language langId,
    hideTextMethod := s.settings.hideTextMethod }

/-- openDocument from extension.ts: a no-op while pretty symbols are
disabled; an existing controller is only refreshed; otherwise a
controller is constructed exactly when the language entry resolves and
has a nonempty substitution list. -/
def openDocument (env : Env) (s : ExtState) (doc : Document) : ExtState :=
  if !s.prettySymbolsEnabled then s
  else
    match findDoc s.documents doc.uri with
    | some _ => s
    | none =>
      match getLanguageEntry s.settings doc.languageId with
      | none => s
      | some language =>
        if 0 < language.substitutions.length then
          { s with documents :=
              mapSet s.documents doc.uri (freshSession env s language doc.languageId) }
        else s

/-- closeDocument from extension.ts: dispose the controller and delete
its binding; no binding means nothing happens. -/
def closeDocument (s : ExtState) (doc : Document) : ExtState :=
  match findDoc s.documents doc.uri with
  | some sess =>
      { s with documents := mapDelete s.documents doc.uri,
               disposedLog := s.disposedLog ++ [sess] }
  | none => s

/-- unloadDocuments from extension.ts: dispose every controller in map
order and clear the map. -/
def unloadDocuments (s : ExtState) : ExtState :=
  { s with disposedLog := s.disposedLog ++ s.documents.map Prod.snd,
           documents := [] }

/-! ## Enable, disable, configuration reload -/

/-- Synchronous notification of every registered handler in
registration order (Set.forEach iterates in insertion order). -/
def notifyEnabledChange (s : ExtState) (b : Bool) : ExtState :=
  { s with notifyLog := s.notifyLog ++ s.onEnabledChangeHandlers.map (fun h => (h, b)) }

/-- disablePrettySymbols: clear the flag, notify false, unload. -/
def disablePrettySymbols (s : ExtState) : ExtState :=
  unloadDocuments (notifyEnabledChange { s with prettySymbolsEnabled := false } false)

/-- The defaulting loop body of reloadConfiguration: each per-language
policy field left unset receives the global default, and
combineIdenticalScopes defaults to false. -/
def setLanguageDefaults (st : Settings) (language : LanguageEntry) : LanguageEntry :=
  let language :=
    if language.revealOn = none then { language with revealOn := some st.revealOn }
    else language
  let language :=
    if language.adjustCursorMovement = none then
      { language with adjustCursorMovement := some st.adjustCursorMovement }
    else language
  let language :=
    if language.prettyCursor = none then
      { language with prettyCursor := some st.prettyCursor }
    else language
  if language.combineIdenticalScopes = none then
    { language with combineIdenticalScopes := some false }
  else language

/-- The settings value assembled by reloadConfiguration: the raw
configuration values with per-language defaults applied. -/
def reloadSettings (env : Env) : Settings :=
  let base : Settings :=
    { substitutions := env.rawSubstitutions, revealOn := env.rawRevealOn,
      adjustCursorMovement := env.rawAdjustCursorMovement,
      prettyCursor := env.rawPrettyCursor, hideTextMethod := env.rawHideTextMethod }
  { base with substitutions := base.substitutions.map (setLanguageDefaults base) }

/-- reloadConfiguration from extension.ts: re-create the TextMate
registry (a throwing constructor leaves it undefined), re-read the
settings, apply per-language defaults, then unload every document and
re-open every workspace text document. -/
def reloadConfiguration (env : Env) (s : ExtState) : ExtState :=
  let s1 := { s with textMateRegistryOk := env.registryOk, settings := reloadSettings env }
  let s2 := unloadDocuments s1
  env.textDocuments.foldl (fun acc d => openDocument env acc d) s2

/-- enablePrettySymbols: set the flag, notify true, reload. -/
def enablePrettySymbols (env : Env) (s : ExtState) : ExtState :=
  reloadConfiguration env (notifyEnabledChange { s with prettySymbolsEnabled := true } true)

/-- deactivate from extension.ts: notify false and unload (the enabled
flag itself is not touched). -/
def deactivate (s : ExtState) : ExtState :=
  unloadDocuments (notifyEnabledChange s false)

/-- Handler registration through the onDidEnabledChange API
(Set.add: already-present handlers keep their original position). -/
def addEnabledChangeHandler (s : ExtState) (h : Nat) : ExtState :=
  if h ∈ s.onEnabledChangeHandlers then s
  else { s with onEnabledChangeHandlers := s.onEnabledChangeHandlers ++ [h] }

/-- Disposal of a handler registration (Set.delete). -/
def removeEnabledChangeHandler (s : ExtState) (h : Nat) : ExtState :=
  { s with onEnabledChangeHandlers := s.onEnabledChangeHandlers.filter (fun g => g ≠ h) }

/-- Recording of an entry by registerSubstitutions
(Set.add on additionalSubstitutions). -/
def addAdditionalSubstitution (s : ExtState) (e : LanguageEntry) : ExtState :=
  if e ∈ s.additionalSubstitutions then s
  else { s with additionalSubstitutions := s.additionalSubstitutions ++ [e] }

/-- registerSubstitutions from the activate API: record the entry and
reload the configuration. -/
def registerSubstitutions (env : Env) (s : ExtState) (e : LanguageEntry) : ExtState :=
  reloadConfiguration env (addAdditionalSubstitution s e)

/-- Disposal of a registerSubstitutions registration (Set.delete). -/
def disposeRegistration (s : ExtState) (e : LanguageEntry) : ExtState :=
  { s with additionalSubstitutions := s.additionalSubstitutions.filter (fun g => g ≠ e) }

/-! ## Event handlers with a catch boundary.
The per-document controller method invoked by a handler is modelled as
an arbitrary fallible transformation of the session (op); internal
mutation of the controller is represented by rebinding its entry. -/

/-- The body shared by the three handlers before the catch: look the
session up by uri and run the controller method on it. -/
def applySessionOp (op : DocSession → Except String DocSession) (s : ExtState)
    (uri : String) : Except String ExtState :=
  match findDoc s.documents uri with
  | none => Except.ok s
  | some d =>
    match op d with
    | Except.ok d2 => Except.ok { s with documents := mapSet s.documents uri d2 }
    | Except.error e => Except.error e

/-- selectionChanged from extension.ts: the body runs under a
try-catch, so a raised exception leaves the state as it was. -/
def selectionChanged (op : DocSession → Except String DocSession) (s : ExtState)
    (uri : String) : ExtState :=
  match applySessionOp op s uri with
  | Except.ok s2 => s2
  | Except.error _ => s

/-- changeActiveTextEditor from extension.ts: an undefined editor is
ignored, and the body runs under a try-catch. -/
def changeActiveTextEditor (op : DocSession → Except String DocSession) (s : ExtState)
    (editor : Option String) : ExtState :=
  match editor with
  | none => s
  | some uri =>
    match applySessionOp op s uri with
    | Except.ok s2 => s2
    | Except.error _ => s

/-- copyWithSubstitutions from extension.ts: same guard and catch
boundary as changeActiveTextEditor, invoking copyDecorated. -/
def copyWithSubstitutions (op : DocSession → Except String DocSession) (s : ExtState)
    (editor : Option String) : ExtState :=
  match editor with
  | none => s
  | some uri =>
    match applySessionOp op s uri with
    | Except.ok s2 => s2
    | Except.error _ => s

/-! ## Coordinate mapper (spec-modelled).
Modelled from the spec: the Coordinate Mapper of document.ts is not
under src/. Per section 4.5, breakpoints are built from the active
(non-revealed) matches; each active match collapses rawLen raw
characters to prettyLen rendered characters; interior raw offsets snap
to the closer edge, and pretty offsets with no exact raw counterpart
map to the nearest raw boundary. -/

/-- An active (non-revealed) match contributing a breakpoint: its raw
start offset, its raw length and its rendered (pretty) length. -/
structure PrettyMatch where
  start : Nat
  rawLen : Nat
  prettyLen : Nat
deriving DecidableEq, Repr

/-- Well-formedness of a breakpoint list starting at raw offset rb:
matches are nonempty on both sides and sorted without overlap. -/
def chainFrom : Nat → List PrettyMatch → Prop
  | _, [] => True
  | rb, m :: ms =>
      rb ≤ m.start ∧ 0 < m.rawLen ∧ 0 < m.prettyLen ∧
      chainFrom (m.start + m.rawLen) ms

instance chainFromDec : (rb : Nat) → (ms : List PrettyMatch) → Decidable (chainFrom rb ms)
  | _, [] => isTrue trivial
  | rb, m :: ms =>
    have : Decidable (chainFrom (m.start + m.rawLen) ms) := chainFromDec (m.start + m.rawLen) ms
    inferInstanceAs (Decidable (rb ≤ m.start ∧ 0 < m.rawLen ∧ 0 < m.prettyLen ∧
      chainFrom (m.start + m.rawLen) ms))

/-- Modelled from the spec: toPretty over the breakpoints at raw base
rb and pretty base pb. Offsets before a match translate by the running
delta; an offset inside a collapsed range snaps to the closer edge of
the glyph; offsets after a match recurse with shifted bases. -/
def toPrettyAux : List PrettyMatch → Nat → Nat → Nat → Nat
  | [], rb, pb, x => pb + (x - rb)
  | m :: ms, rb, pb, x =>
    if x < m.start then pb + (x - rb)
    else if x < m.start + m.rawLen then
      if x - m.start ≤ m.start + m.rawLen - x then pb + (m.start - rb)
      else pb + (m.start - rb) + m.prettyLen
    else toPrettyAux ms (m.start + m.rawLen) (pb + (m.start - rb) + m.prettyLen) x

/-- Modelled from the spec: toRaw over the breakpoints, the inverse
walk of toPrettyAux; a pretty offset inside a glyph maps to the nearest
raw boundary of the collapsed range. -/
def toRawAux : List PrettyMatch → Nat → Nat → Nat → Nat
  | [], rb, pb, y => rb + (y - pb)
  | m :: ms, rb, pb, y =>
    if y < pb + (m.start - rb) then rb + (y - pb)
    else if y < pb + (m.start - rb) + m.prettyLen then
      if y - (pb + (m.start - rb)) ≤ pb + (m.start - rb) + m.prettyLen - y then m.start
      else m.start + m.rawLen
    else toRawAux ms (m.start + m.rawLen) (pb + (m.start - rb) + m.prettyLen) y

/-- Raw offset to pretty offset over a line's active matches. -/
def toPretty (ms : List PrettyMatch) (x : Nat) : Nat :=
  toPrettyAux ms 0 0 x

/-- Pretty offset to raw offset over a line's active matches. -/
def toRaw (ms : List PrettyMatch) (y : Nat) : Nat :=
  toRawAux ms 0 0 y

/-- A raw offset on a breakpoint boundary: not strictly inside any
collapsed range. -/
def rawBoundary (ms : List PrettyMatch) (x : Nat) : Prop :=
  ∀ m ∈ ms, ¬(m.start < x ∧ x < m.start + m.rawLen)

instance rawBoundaryDec (ms : List PrettyMatch) (x : Nat) : Decidable (rawBoundary ms x) :=
  List.decidableBAll _ ms

/-- A pretty offset that is a breakpoint: the image of some raw
boundary offset under the map. -/
def prettyBreakpoint (ms : List PrettyMatch) (y : Nat) : Prop :=
  ∃ x, rawBoundary ms x ∧ toPretty ms x = y

/-! ## Concrete fixtures for witnesses and counterexamples -/

/-- An unscoped substitution rule. -/
def subArrow : Substitution :=
  { ugly := "->", pretty := "→", scope := none }

/-- A scope-qualified substitution rule. -/
def subScoped : Substitution :=
  { ugly := "<=", pretty := "≤", scope := some "keyword.operator" }

/-- A fully defaulted language entry for coq with one unscoped rule. -/
def entryCoq : LanguageEntry :=
  { language := "coq", substitutions := [subArrow], revealOn := some "cursor",
    adjustCursorMovement := some false, prettyCursor := some "boxed",
    combineIdenticalScopes := some false, textMateInitialScope := none }

/-- A language entry for coq with one scope-qualified rule. -/
def entryScoped : LanguageEntry :=
  { language := "coq", substitutions := [subScoped], revealOn := some "cursor",
    adjustCursorMovement := some false, prettyCursor := some "boxed",
    combineIdenticalScopes := some false, textMateInitialScope := none }

/-- A language entry whose language field is plaintext. -/
def entryPlain : LanguageEntry :=
  { language := "plaintext", substitutions := [subArrow], revealOn := some "cursor",
    adjustCursorMovement := some false, prettyCursor := some "boxed",
    combineIdenticalScopes := some false, textMateInitialScope := none }

/-- Settings whose only entry is entryCoq. -/
def settings0 : Settings :=
  { substitutions := [entryCoq], revealOn := "cursor", adjustCursorMovement := false,
    prettyCursor := "boxed", hideTextMethod := "hack-letterSpacing" }

/-- Settings whose only entry is entryScoped. -/
def settingsScoped : Settings :=
  { settings0 with substitutions := [entryScoped] }

/-- Settings whose only entry is entryPlain. -/
def settingsPlain : Settings :=
  { settings0 with substitutions := [entryPlain] }

/-- A coq document. -/
def docCoq : Document := { uri := "file:a.v", languageId := "coq" }

/-- A plaintext document. -/
def docPlain : Document := { uri := "file:b.txt", languageId := "plaintext" }

/-- The session openDocument builds for docCoq under settings0. -/
def sess0 : DocSession :=
  { language := entryCoq, grammar := none, hideTextMethod := "hack-letterSpacing" }

/-- An enabled state with no open sessions and two registered handlers. -/
def stEnabled : ExtState :=
  { prettySymbolsEnabled := true, documents := [], settings := settings0,
    additionalSubstitutions := [], onEnabledChangeHandlers := [1, 2],
    textMateRegistryOk := true, notifyLog := [], disposedLog := [] }

/-- The enabled state with the scoped settings. -/
def stScoped : ExtState := { stEnabled with settings := settingsScoped }

/-- The same state with pretty symbols disabled. -/
def stDisabled : ExtState := { stEnabled with prettySymbolsEnabled := false }

/-- A state holding one open session for docCoq. -/
def stWithSession : ExtState :=
  { stEnabled with documents := [("file:a.v", sess0)] }

/-- An environment whose grammar loader always fails. -/
def envFail : Env :=
  { rawSubstitutions := [entryCoq], rawRevealOn := "cursor",
    rawAdjustCursorMovement := false, rawPrettyCursor := "boxed",
    rawHideTextMethod := "hack-letterSpacing", registryOk := true,
    loadGrammar := fun _ => Except.error "grammar load failed",
    languageScopeName := fun l => "source." ++ l,
    textDocuments := [docCoq] }

/-- An environment whose workspace configuration has no entries while
a coq document is open. -/
def envReg : Env := { envFail with rawSubstitutions := [] }

/-- A controller method that always raises. -/
def opBoom : DocSession → Except String DocSession := fun _ => Except.error "boom"

/-- A breakpoint list with one match collapsing two characters to one. -/
def msW : List PrettyMatch := [{ start := 2, rawLen := 2, prettyLen := 1 }]

/-- A breakpoint list with one match collapsing five characters to one. -/
def msC : List PrettyMatch := [{ start := 1, rawLen := 5, prettyLen := 1 }]

/-- The invariant of the disabled mode: while the enabled flag is
false, the document-session map is empty. -/
def enabledDocsInv (s : ExtState) : Prop :=
  s.prettySymbolsEnabled = false → s.documents = []

/-! ## Helper lemmas on the documents map -/

theorem findDoc_mapSet_self (docs : List (String × DocSession)) (uri : String)
    (v : DocSession) : findDoc (mapSet docs uri v) uri = some v := by
  induction docs with
  | nil => simp [mapSet, findDoc]
  | cons p rest ih =>
    obtain ⟨k, w⟩ := p
    by_cases hk : k = uri
    · simp [mapSet, hk, findDoc]
    · simp [mapSet, hk, findDoc, ih]

theorem findDoc_mapSet_ne (docs : List (String × DocSession)) (uri u2 : String)
    (v : DocSession) (h : u2 ≠ uri) :
    findDoc (mapSet docs uri v) u2 = findDoc docs u2 := by
  induction docs with
  | nil => simp [mapSet, findDoc, Ne.symm h]
  | cons p rest ih =>
    obtain ⟨k, w⟩ := p
    by_cases hk : k = uri
    · subst hk
      simp [mapSet, findDoc, Ne.symm h]
    · simp [mapSet, hk, findDoc, ih]

/-! ## Helper lemmas on openDocument and reloadConfiguration -/

theorem openDocument_eq_set_documents (env : Env) (s : ExtState) (d : Document) :
    ∃ ds, openDocument env s d = { s with documents := ds } := by
  unfold openDocument
  repeat' split
  all_goals exact ⟨_, rfl⟩

theorem foldl_openDocument_eq_set_documents (env : Env) (l : List Document) :
    ∀ s : ExtState, ∃ ds,
      l.foldl (fun acc d => openDocument env acc d) s = { s with documents := ds } := by
  induction l with
  | nil => exact fun s => ⟨s.documents, rfl⟩
  | cons d l ih =>
    intro s
    obtain ⟨ds1, h1⟩ := openDocument_eq_set_documents env s d
    obtain ⟨ds2, h2⟩ := ih (openDocument env s d)
    exact ⟨ds2, by rw [List.foldl_cons, h2, h1]⟩

theorem openDocument_disabled (env : Env) (s : ExtState) (d : Document)
    (h : s.prettySymbolsEnabled = false) : openDocument env s d = s := by
  simp [openDocument, h]

theorem foldl_openDocument_disabled (env : Env) (l : List Document) :
    ∀ s : ExtState, s.prettySymbolsEnabled = false →
      l.foldl (fun acc d => openDocument env acc d) s = s := by
  induction l with
  | nil => exact fun s _ => rfl
  | cons d l ih =>
    intro s h
    rw [List.foldl_cons, openDocument_disabled env s d h, ih s h]

theorem reloadConfiguration_eq (env : Env) (s : ExtState) :
    ∃ ds, reloadConfiguration env s =
      { s with textMateRegistryOk := env.registryOk, settings := reloadSettings env,
               disposedLog := s.disposedLog ++ s.documents.map Prod.snd,
               documents := ds } := by
  obtain ⟨ds, h⟩ := foldl_openDocument_eq_set_documents env env.textDocuments
    (unloadDocuments { s with textMateRegistryOk := env.registryOk,
                              settings := reloadSettings env })
  exact ⟨ds, h⟩

theorem reloadConfiguration_flag (env : Env) (s : ExtState) :
    (reloadConfiguration env s).prettySymbolsEnabled = s.prettySymbolsEnabled := by
  obtain ⟨ds, h⟩ := reloadConfiguration_eq env s
  rw [h]

theorem reload_documents_of_disabled (env : Env) (s : ExtState)
    (h : s.prettySymbolsEnabled = false) :
    (reloadConfiguration env s).documents = [] := by
  show (env.textDocuments.foldl (fun acc d => openDocument env acc d)
    (unloadDocuments { s with textMateRegistryOk := env.registryOk,
                              settings := reloadSettings env })).documents = []
  rw [foldl_openDocument_disabled env env.textDocuments
    (unloadDocuments { s with textMateRegistryOk := env.registryOk,
                              settings := reloadSettings env }) h]
  rfl

theorem inv_reload (env : Env) (s : ExtState) :
    (reloadConfiguration env s).prettySymbolsEnabled = false →
      (reloadConfiguration env s).documents = [] := by
  intro hfl
  rw [reloadConfiguration_flag] at hfl
  exact reload_documents_of_disabled env s hfl

theorem closeDocument_flag (s : ExtState) (d : Document) :
    (closeDocument s d).prettySymbolsEnabled = s.prettySymbolsEnabled := by
  unfold closeDocument
  split <;> rfl

theorem closeDocument_empty (s : ExtState) (d : Document) (h : s.documents = []) :
    closeDocument s d = s := by
  simp [closeDocument, h, findDoc]

theorem selectionChanged_eq_set_documents (op : DocSession → Except String DocSession)
    (s : ExtState) (uri : String) :
    ∃ ds, selectionChanged op s uri = { s with documents := ds } := by
  cases hfd : findDoc s.documents uri with
  | none =>
    have h : selectionChanged op s uri = s := by
      simp only [selectionChanged, applySessionOp, hfd]
    exact ⟨s.documents, h⟩
  | some d =>
    cases hop : op d with
    | ok d2 =>
      have h : selectionChanged op s uri = { s with documents := mapSet s.documents uri d2 } := by
        simp only [selectionChanged, applySessionOp, hfd, hop]
      exact ⟨mapSet s.documents uri d2, h⟩
    | error e =>
      have h : selectionChanged op s uri = s := by
        simp only [selectionChanged, applySessionOp, hfd, hop]
      exact ⟨s.documents, h⟩

theorem selectionChanged_flag (op : DocSession → Except String DocSession)
    (s : ExtState) (uri : String) :
    (selectionChanged op s uri).prettySymbolsEnabled = s.prettySymbolsEnabled := by
  obtain ⟨ds, h⟩ := selectionChanged_eq_set_documents op s uri
  rw [h]

theorem openDocument_flag (env : Env) (s : ExtState) (d : Document) :
    (openDocument env s d).prettySymbolsEnabled = s.prettySymbolsEnabled := by
  obtain ⟨ds, h⟩ := openDocument_eq_set_documents env s d
  rw [h]

theorem openDocument_fresh (env : Env) (s : ExtState) (doc : Document) (e : LanguageEntry)
    (hen : s.prettySymbolsEnabled = true)
    (hnew : findDoc s.documents doc.uri = none)
    (hentry : getLanguageEntry s.settings doc.languageId = some e)
    (hsubs : 0 < e.substitutions.length) :
    openDocument env s doc
      = { s with
          documents := mapSet s.documents doc.uri (freshSession env s e doc.languageId) } := by
  simp [openDocument, hen, hnew, hentry, hsubs]

theorem selectionChanged_error (op : DocSession → Except String DocSession)
    (s : ExtState) (uri : String) (d : DocSession) (msg : String)
    (hd : findDoc s.documents uri = some d) (herr : op d = Except.error msg) :
    selectionChanged op s uri = s := by
  simp only [selectionChanged, applySessionOp, hd, herr]

theorem selectionChanged_isolation (op : DocSession → Except String DocSession)
    (s : ExtState) (uri u2 : String) (hne : u2 ≠ uri) :
    findDoc (selectionChanged op s uri).documents u2 = findDoc s.documents u2 := by
  cases hfd : findDoc s.documents uri with
  | none =>
    have h : selectionChanged op s uri = s := by
      simp only [selectionChanged, applySessionOp, hfd]
    rw [h]
  | some d =>
    cases hop : op d with
    | ok d2 =>
      have h : selectionChanged op s uri = { s with documents := mapSet s.documents uri d2 } := by
        simp only [selectionChanged, applySessionOp, hfd, hop]
      rw [h]
      exact findDoc_mapSet_ne s.documents uri u2 d2 hne
    | error e =>
      have h : selectionChanged op s uri = s := by
        simp only [selectionChanged, applySessionOp, hfd, hop]
      rw [h]

theorem selectionChanged_empty (op : DocSession → Except String DocSession)
    (s : ExtState) (uri : String) (h : s.documents = []) :
    selectionChanged op s uri = s := by
  simp [selectionChanged, applySessionOp, h, findDoc]

/-! ## Helper lemmas on language entry resolution and defaults -/

theorem findLanguageEntryIn_eq_find (lang : String) (l : List LanguageEntry) :
    findLanguageEntryIn lang l = l.find? (fun e => e.language == lang) := by
  induction l with
  | nil => rfl
  | cons e rest ih =>
    by_cases hb : e.language = lang
    · have hbe : (e.language == lang) = true := beq_iff_eq.mpr hb
      simp [findLanguageEntryIn, hb, List.find?, hbe]
    · have hbe : (e.language == lang) = false := beq_eq_false_iff_ne.mpr hb
      simp [findLanguageEntryIn, hb, List.find?, hbe, ih]

theorem setLanguageDefaults_eq (st : Settings) (e : LanguageEntry) :
    setLanguageDefaults st e =
      { e with revealOn := some (e.revealOn.getD st.revealOn),
               adjustCursorMovement := some (e.adjustCursorMovement.getD st.adjustCursorMovement),
               prettyCursor := some (e.prettyCursor.getD st.prettyCursor),
               combineIdenticalScopes := some (e.combineIdenticalScopes.getD false) } := by
  obtain ⟨lang, subs, r, a, p, c, t⟩ := e
  cases r <;> cases a <;> cases p <;> cases c <;> rfl

/-! ## Helper lemmas on the coordinate mapper -/

theorem le_toPrettyAux (ms : List PrettyMatch) :
    ∀ rb pb x : Nat, pb ≤ toPrettyAux ms rb pb x := by
  induction ms with
  | nil => intro rb pb x; simp [toPrettyAux]
  | cons m ms ih =>
    intro rb pb x
    unfold toPrettyAux
    split
    · exact Nat.le_add_right pb (x - rb)
    · split
      · split
        · exact Nat.le_add_right pb (m.start - rb)
        · omega
      · calc pb ≤ pb + (m.start - rb) + m.prettyLen := by omega
          _ ≤ _ := ih (m.start + m.rawLen) (pb + (m.start - rb) + m.prettyLen) x

theorem toRaw_toPretty_aux (ms : List PrettyMatch) :
    ∀ rb pb x : Nat, chainFrom rb ms → rb ≤ x → rawBoundary ms x →
      toRawAux ms rb pb (toPrettyAux ms rb pb x) = x := by
  induction ms with
  | nil =>
    intro rb pb x _ hle _
    simp only [toPrettyAux, toRawAux]
    omega
  | cons m ms ih =>
    intro rb pb x hch hle hb
    obtain ⟨h1, h2, h3, h4⟩ := hch
    have hbm := hb m (List.mem_cons_self m ms)
    by_cases hx1 : x < m.start
    · simp only [toPrettyAux, if_pos hx1, toRawAux]
      rw [if_pos (show pb + (x - rb) < pb + (m.start - rb) by omega)]
      omega
    · by_cases hx2 : x < m.start + m.rawLen
      · have hxeq : x = m.start := by
          rcases Nat.lt_or_ge m.start x with hgt | hge
          · exact absurd ⟨hgt, hx2⟩ hbm
          · omega
        simp only [toPrettyAux, if_neg hx1, if_pos hx2,
          if_pos (show x - m.start ≤ m.start + m.rawLen - x by omega)]
        simp only [toRawAux, if_neg (show ¬(pb + (m.start - rb) < pb + (m.start - rb)) by omega),
          if_pos (show pb + (m.start - rb) < pb + (m.start - rb) + m.prettyLen by omega),
          if_pos (show pb + (m.start - rb) - (pb + (m.start - rb)) ≤
            pb + (m.start - rb) + m.prettyLen - (pb + (m.start - rb)) by omega)]
        omega
      · simp only [toPrettyAux, if_neg hx1, if_neg hx2]
        have hy := le_toPrettyAux ms (m.start + m.rawLen) (pb + (m.start - rb) + m.prettyLen) x
        simp only [toRawAux,
          if_neg (show ¬(toPrettyAux ms (m.start + m.rawLen)
            (pb + (m.start - rb) + m.prettyLen) x < pb + (m.start - rb)) by omega),
          if_neg (show ¬(toPrettyAux ms (m.start + m.rawLen)
            (pb + (m.start - rb) + m.prettyLen) x < pb + (m.start - rb) + m.prettyLen) by omega)]
        exact ih (m.start + m.rawLen) (pb + (m.start - rb) + m.prettyLen) x h4 (by omega)
          (fun mm hm => hb mm (List.mem_cons_of_mem m hm))

/-! ## Claim theorems -/

/-- Claim C1 (code bug, evaluated at the failing input): an entry for
coq with a nonempty substitution list is registered through
registerSubstitutions while a coq document is open and the workspace
configuration has no coq entry. After the triggered reload the entry
is recorded in additionalSubstitutions, yet the document map stays
empty and language-entry resolution still returns none for the
document, because the reloaded resolution never reads
additionalSubstitutions: the registered substitutions are not applied. -/
theorem c1_register_no_effect :
    envReg.rawSubstitutions = []
    ∧ docCoq ∈ envReg.textDocuments
    ∧ docCoq.languageId = entryCoq.language
    ∧ 0 < entryCoq.substitutions.length
    ∧ (registerSubstitutions envReg stEnabled entryCoq).additionalSubstitutions = [entryCoq]
    ∧ (registerSubstitutions envReg stEnabled entryCoq).documents = []
    ∧ getLanguageEntry (registerSubstitutions envReg stEnabled entryCoq).settings
        docCoq.languageId = none :=
  ⟨rfl, List.mem_cons_self docCoq [], rfl, by decide, rfl, rfl, rfl⟩

/-- Claim C2 counterexample: the first (and only) configured entry has
language field exactly equal to the languageId plaintext of the
document, yet resolution returns none instead of that entry, so the
claim as stated fails for plaintext (and likewise jsonc) documents. -/
theorem c2_counterexample :
    settingsPlain.substitutions.head? = some entryPlain
    ∧ entryPlain.language = "plaintext"
    ∧ specFirstExactEntry settingsPlain.substitutions "plaintext" = some entryPlain
    ∧ getLanguageEntry settingsPlain "plaintext" = none :=
  ⟨rfl, rfl, rfl, rfl⟩

/-- Claim C2 (amended): for every document whose languageId is neither
plaintext nor jsonc, language-entry resolution returns exactly the
first configured entry whose language field equals the languageId
(declaration order deciding ties) and none when no entry matches, with
no fuzzy or ranked matching; plaintext and jsonc documents always
resolve to none, even when an exactly matching entry is configured. -/
theorem c2_exact_match_resolution (st : Settings) (lang : String)
    (h1 : lang ≠ "plaintext") (h2 : lang ≠ "jsonc") :
    getLanguageEntry st lang = specFirstExactEntry st.substitutions lang := by
  unfold getLanguageEntry
  rw [if_neg (fun hc => hc.elim h1 h2)]
  exact findLanguageEntryIn_eq_find lang st.substitutions

/-- Witness for claim C2 at a concrete language and settings. -/
theorem c2_witness :
    getLanguageEntry settings0 "coq" = specFirstExactEntry settings0.substitutions "coq" :=
  c2_exact_match_resolution settings0 "coq" (by decide) (by decide)

/-- Claim C4: after reloadConfiguration, every language entry of the
loaded settings has each unset policy field replaced by its default
(the configured global for revealOn, adjustCursorMovement and
prettyCursor, and false for combineIdenticalScopes) while fields that
were set, and all other fields, are unchanged. -/
theorem c4_language_defaults (env : Env) (s : ExtState) :
    (reloadConfiguration env s).settings.substitutions =
      env.rawSubstitutions.map (fun e =>
        { e with revealOn := some (e.revealOn.getD env.rawRevealOn),
                 adjustCursorMovement :=
                   some (e.adjustCursorMovement.getD env.rawAdjustCursorMovement),
                 prettyCursor := some (e.prettyCursor.getD env.rawPrettyCursor),
                 combineIdenticalScopes :=
                   some (e.combineIdenticalScopes.getD false) }) := by
  obtain ⟨ds, h⟩ := reloadConfiguration_eq env s
  rw [h]
  show List.map (setLanguageDefaults
    { substitutions := env.rawSubstitutions, revealOn := env.rawRevealOn,
      adjustCursorMovement := env.rawAdjustCursorMovement,
      prettyCursor := env.rawPrettyCursor,
      hideTextMethod := env.rawHideTextMethod }) env.rawSubstitutions = _
  have hf : setLanguageDefaults
      { substitutions := env.rawSubstitutions, revealOn := env.rawRevealOn,
        adjustCursorMovement := env.rawAdjustCursorMovement,
        prettyCursor := env.rawPrettyCursor,
        hideTextMethod := env.rawHideTextMethod }
      = (fun e : LanguageEntry =>
        { e with revealOn := some (e.revealOn.getD env.rawRevealOn),
                 adjustCursorMovement :=
                   some (e.adjustCursorMovement.getD env.rawAdjustCursorMovement),
                 prettyCursor := some (e.prettyCursor.getD env.rawPrettyCursor),
                 combineIdenticalScopes :=
                   some (e.combineIdenticalScopes.getD false) }) :=
    funext (fun e => setLanguageDefaults_eq _ e)
  rw [hf]

/-- Claim C10: for plaintext and jsonc documents, language-entry
resolution returns none regardless of the configured substitutions,
and openDocument leaves the state untouched, so no session is ever
created for such a document. -/
theorem c10_plaintext_jsonc_excluded (st : Settings) (env : Env) (s : ExtState)
    (doc : Document)
    (hl : doc.languageId = "plaintext" ∨ doc.languageId = "jsonc") :
    getLanguageEntry st doc.languageId = none ∧ openDocument env s doc = s := by
  have hge : ∀ st2 : Settings, getLanguageEntry st2 doc.languageId = none := by
    intro st2
    unfold getLanguageEntry
    exact if_pos hl
  refine ⟨hge st, ?_⟩
  cases hb : s.prettySymbolsEnabled with
  | false => exact openDocument_disabled env s doc hb
  | true =>
    cases hfd : findDoc s.documents doc.uri with
    | some d => simp [openDocument, hb, hfd]
    | none => simp [openDocument, hb, hfd, hge s.settings]

/-- Witness for claim C10 at a plaintext document whose language has a
configured entry. -/
theorem c10_witness :
    getLanguageEntry settingsPlain docPlain.languageId = none
    ∧ openDocument envFail stEnabled docPlain = stEnabled :=
  c10_plaintext_jsonc_excluded settingsPlain envFail stEnabled docPlain (Or.inl rfl)

/-- Claim C3: when the language entry of a fresh document has at least
one substitution, a grammar load failure (the registry is undefined or
the loader rejects for the computed scope name) does not prevent the
session: openDocument still constructs the controller for the
document, with an undefined grammar, so unscoped rules still function. -/
theorem c3_grammar_failure_still_opens (env : Env) (s : ExtState) (doc : Document)
    (e : LanguageEntry)
    (hen : s.prettySymbolsEnabled = true)
    (hnew : findDoc s.documents doc.uri = none)
    (hentry : getLanguageEntry s.settings doc.languageId = some e)
    (hsubs : 0 < e.substitutions.length)
    (hfail : s.textMateRegistryOk = false
      ∨ ∃ msg, env.loadGrammar (sessionScopeName env e doc.languageId)
          = Except.error msg) :
    findDoc (openDocument env s doc).documents doc.uri
      = some { language := e, grammar := none,
               hideTextMethod := s.settings.hideTextMethod } := by
  have hgr : sessionGrammar env s e doc.languageId = none := by
    unfold sessionGrammar
    rcases hfail with hreg | ⟨msg, herr⟩
    · rw [hreg]
      rfl
    · split
      · simp [loadGrammarResult, herr]
      · rfl
  rw [openDocument_fresh env s doc e hen hnew hentry hsubs]
  simp [findDoc_mapSet_self, freshSession, hgr]

/-- Witness for claim C3: a scoped entry, a failing loader, and a
fresh coq document still produce a session with no grammar. -/
theorem c3_witness :
    findDoc (openDocument envFail stScoped docCoq).documents docCoq.uri
      = some { language := entryScoped, grammar := none,
               hideTextMethod := stScoped.settings.hideTextMethod } :=
  c3_grammar_failure_still_opens envFail stScoped docCoq entryScoped rfl rfl rfl
    (by decide) (Or.inr ⟨"grammar load failed", rfl⟩)

/-- Claim C5 counterexample: while pretty symbols are disabled, a
fresh document whose language entry exists with a nonempty
substitution list is opened and still no session is created, so the
claimed condition is not exact as stated. -/
theorem c5_counterexample :
    getLanguageEntry stDisabled.settings docCoq.languageId = some entryCoq
    ∧ 0 < entryCoq.substitutions.length
    ∧ findDoc (openDocument envFail stDisabled docCoq).documents docCoq.uri = none :=
  ⟨rfl, by decide, rfl⟩

/-- Claim C5 (amended): while pretty symbols are enabled, after
document-open a session exists for the document exactly when one
already existed or the resolved language entry exists with a nonempty
substitution list; on document-close an existing session is disposed
and its binding deleted, and closing a document with no session leaves
the state unchanged. -/
theorem c5_open_close_lifecycle (env : Env) (s s2 : ExtState) (doc doc2 : Document)
    (hen : s.prettySymbolsEnabled = true) :
    ((findDoc (openDocument env s doc).documents doc.uri).isSome = true
        ↔ ((findDoc s.documents doc.uri).isSome = true
            ∨ ∃ e, getLanguageEntry s.settings doc.languageId = some e
                ∧ 0 < e.substitutions.length))
    ∧ (∀ sess, findDoc s2.documents doc2.uri = some sess →
        (closeDocument s2 doc2).documents = mapDelete s2.documents doc2.uri
        ∧ (closeDocument s2 doc2).disposedLog = s2.disposedLog ++ [sess])
    ∧ (findDoc s2.documents doc2.uri = none → closeDocument s2 doc2 = s2) := by
  refine ⟨?_, ?_, ?_⟩
  · cases hfd : findDoc s.documents doc.uri with
    | some d =>
      have hod : openDocument env s doc = s := by simp [openDocument, hen, hfd]
      rw [hod, hfd]
      simp
    | none =>
      cases hge : getLanguageEntry s.settings doc.languageId with
      | none =>
        have hod : openDocument env s doc = s := by simp [openDocument, hen, hfd, hge]
        rw [hod, hfd]
        simp
      | some e =>
        by_cases hlen : 0 < e.substitutions.length
        · rw [openDocument_fresh env s doc e hen hfd hge hlen]
          simp [findDoc_mapSet_self, hlen]
        · have hod : openDocument env s doc = s := by simp [openDocument, hen, hfd, hge, hlen]
          rw [hod, hfd]
          simp [hlen]
  · intro sess hsess
    constructor <;> simp [closeDocument, hsess]
  · intro hnone
    simp [closeDocument, hnone]

/-- Witness for claim C5: opening a fresh coq document under enabled
state creates a session, and closing a document with a session deletes
its binding. -/
theorem c5_witness :
    (findDoc (openDocument envFail stEnabled docCoq).documents docCoq.uri).isSome = true
    ∧ (closeDocument stWithSession docCoq).documents
        = mapDelete stWithSession.documents docCoq.uri := by
  have h := c5_open_close_lifecycle envFail stEnabled stWithSession docCoq docCoq rfl
  exact ⟨h.1.mpr (Or.inr ⟨entryCoq, rfl, by decide⟩), (h.2.1 sess0 rfl).1⟩

/-- Claim C6: an exception raised by a controller method while a
selection-changed, copy-with-substitutions, or active-editor-changed
event is handled is caught at the handler boundary, leaving the state
as it was, and a handler run against one document never changes the
session bound to any other document. -/
theorem c6_fault_isolated (op : DocSession → Except String DocSession)
    (s : ExtState) (uri u2 : String) (hne : u2 ≠ uri) :
    (∀ d msg, findDoc s.documents uri = some d → op d = Except.error msg →
        selectionChanged op s uri = s
        ∧ changeActiveTextEditor op s (some uri) = s
        ∧ copyWithSubstitutions op s (some uri) = s)
    ∧ findDoc (selectionChanged op s uri).documents u2 = findDoc s.documents u2
    ∧ findDoc (changeActiveTextEditor op s (some uri)).documents u2
        = findDoc s.documents u2
    ∧ findDoc (copyWithSubstitutions op s (some uri)).documents u2
        = findDoc s.documents u2 := by
  refine ⟨?_, selectionChanged_isolation op s uri u2 hne,
    selectionChanged_isolation op s uri u2 hne,
    selectionChanged_isolation op s uri u2 hne⟩
  intro d msg hd herr
  have h1 := selectionChanged_error op s uri d msg hd herr
  exact ⟨h1, h1, h1⟩

/-- Witness for claim C6: a controller method that raises leaves the
state with one session unchanged and does not touch other uris. -/
theorem c6_witness :
    selectionChanged opBoom stWithSession "file:a.v" = stWithSession
    ∧ findDoc (selectionChanged opBoom stWithSession "file:a.v").documents "file:other"
        = findDoc stWithSession.documents "file:other" := by
  have h := c6_fault_isolated opBoom stWithSession "file:a.v" "file:other" (by decide)
  exact ⟨(h.1 sess0 "boom" rfl rfl).1, h.2.1⟩

/-- Claim C7: disabling (via disablePrettySymbols or deactivate)
appends a false notification for every registered handler in
registration order and disposes and unloads every session; enabling
notifies every handler with true; registration appends a new handler
at the end; and a disposed registration is removed from the handler
list, so it receives no further notifications. -/
theorem c7_enabled_change_observers (env : Env) (s : ExtState) (h : Nat) :
    (disablePrettySymbols s).notifyLog
        = s.notifyLog ++ s.onEnabledChangeHandlers.map (fun g => (g, false))
    ∧ (disablePrettySymbols s).disposedLog = s.disposedLog ++ s.documents.map Prod.snd
    ∧ (disablePrettySymbols s).documents = []
    ∧ (disablePrettySymbols s).prettySymbolsEnabled = false
    ∧ (deactivate s).notifyLog
        = s.notifyLog ++ s.onEnabledChangeHandlers.map (fun g => (g, false))
    ∧ (deactivate s).disposedLog = s.disposedLog ++ s.documents.map Prod.snd
    ∧ (deactivate s).documents = []
    ∧ (enablePrettySymbols env s).notifyLog
        = s.notifyLog ++ s.onEnabledChangeHandlers.map (fun g => (g, true))
    ∧ (addEnabledChangeHandler s h).onEnabledChangeHandlers
        = (if h ∈ s.onEnabledChangeHandlers then s.onEnabledChangeHandlers
           else s.onEnabledChangeHandlers ++ [h])
    ∧ h ∉ (removeEnabledChangeHandler s h).onEnabledChangeHandlers := by
  refine ⟨rfl, rfl, rfl, rfl, rfl, rfl, rfl, ?_, ?_, ?_⟩
  · obtain ⟨ds, hr⟩ := reloadConfiguration_eq env
      (notifyEnabledChange { s with prettySymbolsEnabled := true } true)
    calc (enablePrettySymbols env s).notifyLog
        = (reloadConfiguration env
            (notifyEnabledChange { s with prettySymbolsEnabled := true } true)).notifyLog := rfl
      _ = s.notifyLog ++ s.onEnabledChangeHandlers.map (fun g => (g, true)) := by
            rw [hr]
            rfl
  · by_cases hm : h ∈ s.onEnabledChangeHandlers <;>
      simp [addEnabledChangeHandler, hm]
  · simp [removeEnabledChangeHandler, List.mem_filter]

/-- Witness for claim C7 at a concrete state with two handlers. -/
theorem c7_witness :
    (disablePrettySymbols stEnabled).notifyLog = [(1, false), (2, false)]
    ∧ (disablePrettySymbols stEnabled).documents = [] := by
  have h := c7_enabled_change_observers envFail stEnabled 1
  exact ⟨by rw [h.1]; rfl, h.2.2.1⟩

/-- Claim C8 counterexample: over the breakpoint list collapsing the
raw range from 1 to 6 into one pretty character, the raw offset 4 is a
valid document offset strictly inside the collapsed range; toPretty
snaps it to the far edge of the glyph and toRaw returns 6, so the
round trip does not restore 4 and the unrestricted claim fails. -/
theorem c8_counterexample :
    chainFrom 0 msC
    ∧ toPretty msC 4 = 2
    ∧ toRaw msC (toPretty msC 4) = 6
    ∧ (toRaw msC (toPretty msC 4) == 4) = false := by
  refine ⟨by decide, by decide, by decide, by decide⟩

/-- Claim C8 (amended): for every well-formed breakpoint list,
toRaw(toPretty(x)) equals x for every raw offset x on a breakpoint
boundary (not strictly inside a collapsed range), and for every pretty
offset that is a breakpoint the converse round trip holds; raw offsets
strictly inside a collapsed range instead snap to an edge, as shown by
the counterexample. -/
theorem c8_round_trip (ms : List PrettyMatch) (x y : Nat)
    (hwf : chainFrom 0 ms) (hx : rawBoundary ms x) (hy : prettyBreakpoint ms y) :
    toRaw ms (toPretty ms x) = x ∧ toPretty ms (toRaw ms y) = y := by
  have hmain : ∀ z : Nat, rawBoundary ms z → toRaw ms (toPretty ms z) = z := fun z hz =>
    toRaw_toPretty_aux ms 0 0 z hwf (Nat.zero_le z) hz
  refine ⟨hmain x hx, ?_⟩
  obtain ⟨x2, hx2, he⟩ := hy
  rw [← he, hmain x2 hx2]

/-- Witness for claim C8 on a concrete breakpoint list. -/
theorem c8_witness :
    toRaw msW (toPretty msW 5) = 5 ∧ toPretty msW (toRaw msW 2) = 2 :=
  c8_round_trip msW 5 2 (by decide) (by decide) ⟨2, by decide, by decide⟩

/-- Claim C9: the invariant that a false enabled flag implies an empty
document map is preserved by every operation of the module;
disablePrettySymbols establishes it by clearing the map, and while the
flag is false openDocument returns the state unchanged, so no
substitution state exists for any document while disabled. -/
theorem c9_disabled_no_sessions (env : Env) (s : ExtState) (doc : Document)
    (e : LanguageEntry) (op : DocSession → Except String DocSession) (uri : String)
    (hInv : enabledDocsInv s) :
    enabledDocsInv (openDocument env s doc)
    ∧ enabledDocsInv (closeDocument s doc)
    ∧ enabledDocsInv (disablePrettySymbols s)
    ∧ enabledDocsInv (enablePrettySymbols env s)
    ∧ enabledDocsInv (reloadConfiguration env s)
    ∧ enabledDocsInv (registerSubstitutions env s e)
    ∧ enabledDocsInv (deactivate s)
    ∧ enabledDocsInv (selectionChanged op s uri)
    ∧ (disablePrettySymbols s).documents = []
    ∧ (s.prettySymbolsEnabled = false → openDocument env s doc = s) := by
  refine ⟨?_, ?_, fun _ => rfl, ?_, inv_reload env s,
    inv_reload env (addAdditionalSubstitution s e), fun _ => rfl, ?_, rfl,
    fun hf => openDocument_disabled env s doc hf⟩
  · intro hfl
    rw [openDocument_flag] at hfl
    rw [openDocument_disabled env s doc hfl]
    exact hInv hfl
  · intro hfl
    rw [closeDocument_flag] at hfl
    rw [closeDocument_empty s doc (hInv hfl)]
    exact hInv hfl
  · intro hfl
    have ht : (enablePrettySymbols env s).prettySymbolsEnabled = true :=
      reloadConfiguration_flag env (notifyEnabledChange { s with prettySymbolsEnabled := true } true)
    rw [ht] at hfl
    exact Bool.noConfusion hfl
  · intro hfl
    rw [selectionChanged_flag] at hfl
    rw [selectionChanged_empty op s uri (hInv hfl)]
    exact hInv hfl

/-- Witness for claim C9 at a concrete disabled state. -/
theorem c9_witness :
    enabledDocsInv (openDocument envFail stDisabled docCoq)
    ∧ (disablePrettySymbols stDisabled).documents = [] := by
  have h := c9_disabled_no_sessions envFail stDisabled docCoq entryCoq opBoom "u"
    (fun _ => rfl)
  exact ⟨h.1, h.2.2.2.2.2.2.2.2.1⟩

end PrettifySymbols
